import Mathlib

/-!
Verification of `src/mathml/xmlterm.py` (the mathdom repository): the
tree-to-markup emitter (`SaxTerm.tree_to_sax`) and the markup-to-tree
extractor (`dom_to_tree`).

The AST is the tagged-list structure produced by `termparser` and consumed
by `xmlterm.py`: `[op, operand, ...]`, `[u'name', id]`, `[u'const:KIND', value]`,
`[u'case', cond, value]` / `[u'case', cond, value, otherwise]`, `[u'list', ...]`,
`[u'interval:CLOSURE', ...]`.  Here it is embedded as a closed sum type whose
constructors correspond one-to-one to those tag shapes; an application whose
operator string is itself one of the reserved tags (`name`, `const:...`,
`case`, `list...`, `interval:...`) is not a distinct value in the source
representation (the tagged list *is* the other node kind), which the
well-formedness predicate `rt_safe` makes explicit.

The SAX event stream and the DOM document that `mathdom` builds from it are
not under `src/`; the event vocabulary is taken from the calls the emitter
makes, and the document assembly plus the small DOM accessors (`mathtype`,
`valuetype`, `value`, `closure`, `childNodes`, `localName`, `firstChild`)
are modelled from the spec, as noted on each definition.
-/

namespace Xmlterm

/-- The single namespace URI used by the emitter (`mathdom.MATHML_NAMESPACE_URI`). -/
def MATHML_NAMESPACE_URI : String := "http://www.w3.org/1998/Math/MathML"

/-- `_FUNCTION_MAP.get`: the static operator-symbol → element-name table of
`xmlterm.py` lines 103–117, embedded as a total function (Python `dict.get`). -/
def map_operator (op : String) : Option String :=
  if op = "+" then some "plus"
  else if op = "-" then some "minus"
  else if op = "*" then some "times"
  else if op = "/" then some "divide"
  else if op = "^" then some "power"
  else if op = "|" then some "factorof"
  else if op = "=" then some "eq"
  else if op = "<>" then some "neq"
  else if op = "!=" then some "neq"
  else if op = ">" then some "gt"
  else if op = ">=" then some "geq"
  else if op = "<=" then some "leq"
  else if op = "<" then some "lt"
  else none

/-- The inverse operator table of `dom_to_tree` line 278:
`dict((v,n) for (n,v) in _FUNCTION_MAP.iteritems()).get`.  The dictionary
inversion is not injective on `neq` (`<>` and `!=` both map to it); the entry
inserted last wins.  Python 2 dict iteration order is implementation-defined,
so we fix source order, under which `!=` overwrites `<>`; either way the
inverse sends `neq` to one fixed symbol of the two. -/
def map_operator_inv (el : String) : Option String :=
  if el = "plus" then some "+"
  else if el = "minus" then some "-"
  else if el = "times" then some "*"
  else if el = "divide" then some "/"
  else if el = "power" then some "^"
  else if el = "factorof" then some "|"
  else if el = "eq" then some "="
  else if el = "neq" then some "!="
  else if el = "gt" then some ">"
  else if el = "geq" then some ">="
  else if el = "leq" then some "<="
  else if el = "lt" then some "<"
  else none

/-- `_ELEMENT_CONSTANT_MAP.get`: symbolic-constant identifier → element name
(`xmlterm.py` lines 95–101). -/
def map_constant (id : String) : Option String :=
  if id = "true" then some "true"
  else if id = "false" then some "false"
  else if id = "pi" then some "pi"
  else if id = "i" then some "imaginaryi"
  else if id = "e" then some "exponentiale"
  else none

/-- The inverse constant table of `dom_to_tree` line 279 (all values of
`_ELEMENT_CONSTANT_MAP` are distinct, so the inversion is exact). -/
def map_constant_inv (el : String) : Option String :=
  if el = "true" then some "true"
  else if el = "false" then some "false"
  else if el = "pi" then some "pi"
  else if el = "imaginaryi" then some "i"
  else if el = "exponentiale" then some "e"
  else none

/-- Python string slicing `s[:n]` on code points, as in the source's tag
tests `operator[:4] == u'list'` and `operator[:9] == u'interval:'`
(`startswith(u'const:')` is the same test at length 6). -/
def tagHead (n : Nat) (s : String) : String := String.mk (s.data.take n)

/-- Python string slicing `s[n:]`, as in the source's `operator[9:]`. -/
def tagTail (n : Nat) (s : String) : String := String.mk (s.data.drop n)

mutual

/-- The tagged-list AST of the source.  Constant payloads are carried in their
`mkstr` rendering (the emitter only ever writes `mkstr(tree[1])`):
`constBool` is `[u'const:bool', b]`; `constPair k a b` is `[u'const:k', v]`
with a two-part MathDOM payload `v` (in the source such payloads occur exactly
for `k` ∈ {complex, rational, enotation}, the `termparser` invariant);
`constNum k s` is `[u'const:k', v]` with a scalar payload rendering as `s`.
`case3`/`case4` are the 3- and 4-element `case` lists. -/
inductive Tree where
  | apply (op : String) (args : Trees)
  | name (id : String)
  | constBool (b : Bool)
  | constPair (kind p1 p2 : String)
  | constNum (kind v : String)
  | case3 (cond val : Tree)
  | case4 (cond val ow : Tree)
  | list (items : Trees)
  | interval (closure : String) (items : Trees)

/-- Operand / item sequences of the tagged list (`tree[1:]`). -/
inductive Trees where
  | nil
  | cons (t : Tree) (ts : Trees)

end

/-- The SAX events the emitter delivers to its content handler
(`startDocument`, `startPrefixMapping`, `startElementNS`, `characters`,
`endElementNS`, `endPrefixMapping`, `endDocument`). -/
inductive Event where
  | startDocument
  | endDocument
  | startPrefixMapping (uri : String)
  | endPrefixMapping
  | startElement (ns name : String) (attrs : List (String × String))
  | endElement (ns name : String)
  | characters (s : String)
deriving DecidableEq

/-- `SaxTerm._open_tag`. -/
def openTag (n : String) (attrs : List (String × String)) : List Event :=
  [Event.startElement MATHML_NAMESPACE_URI n attrs]

/-- `SaxTerm._close_tag`. -/
def closeTag (n : String) : List Event :=
  [Event.endElement MATHML_NAMESPACE_URI n]

/-- `SaxTerm._write_element`: open, optional characters (Python `if content:`
skips falsy content, i.e. `None` or the empty string), close. -/
def writeElement (n content : String) (attrs : List (String × String)) : List Event :=
  [Event.startElement MATHML_NAMESPACE_URI n attrs]
    ++ (if content = "" then [] else [Event.characters content])
    ++ [Event.endElement MATHML_NAMESPACE_URI n]

/-- `SaxTerm._send_bin_constant`: `<cn type="…">part1<sep/>part2</cn>`
(the two `characters` calls are unconditional in the source). -/
def sendBinConstant (typename p1 p2 : String) : List Event :=
  openTag "cn" [("type", typename)]
    ++ [Event.characters p1] ++ writeElement "sep" "" [] ++ [Event.characters p2]
    ++ closeTag "cn"

mutual

/-- `SaxTerm._recursive_tree_to_sax`, branch for branch.  The source
dispatches on the tag string; for an application the tag is the operator, so
after the operator-table test the reserved-tag tests of lines 162-185 still
apply to it.  An operator whose first four characters are `list` emits list
markup (`_send_list`, the identifier discarded) and one starting `interval:`
emits interval markup with the closure read from the tag remainder, exactly
as the source does.  A tagged list whose head is `name`, `const:*` or `case`
is represented by the canonical constructors below, whose branches embed the
source behavior; the `apply` constructor at those tags is a duplicate
encoding with no separate source meaning (case-tagged lists of arity other
than 3 or 4 crash the source or ignore trailing elements), is excluded from
every theorem's domain by `rt_safe`, and is mapped here to the function-call
form. -/
def recursive_tree_to_sax : Tree → List Event
  | .apply op args =>
    match map_operator op with
    | some m =>
      openTag "apply" [] ++ (writeElement m "" [] ++ (emitAll args ++ closeTag "apply"))
    | none =>
      if op = "name" ∨ tagHead 6 op = "const:" ∨ op = "case" then
        openTag "apply" [] ++ (writeElement op "" [] ++ (emitAll args ++ closeTag "apply"))
      else if tagHead 4 op = "list" then
        openTag "list" [] ++ (emitAll args ++ closeTag "list")
      else if tagHead 9 op = "interval:" then
        openTag "interval"
            [("closure", if tagTail 9 op = "" then "closed" else tagTail 9 op)]
          ++ (emitAll args ++ closeTag "interval")
      else
        openTag "apply" [] ++ (writeElement op "" [] ++ (emitAll args ++ closeTag "apply"))
  | .name id =>
    match map_constant id with
    | some c => writeElement c "" []
    | none => writeElement "ci" id []
  | .constBool b => writeElement (if b then "true" else "false") "" []
  | .constPair kind p1 p2 =>
    sendBinConstant (if kind = "enotation" then "e-notation" else kind) p1 p2
  | .constNum kind v => writeElement "cn" v [("type", kind)]
  | .case3 cond val =>
    openTag "piecewise" []
      ++ ((openTag "piece" [] ++ (recursive_tree_to_sax val
            ++ (recursive_tree_to_sax cond ++ closeTag "piece")))
        ++ closeTag "piecewise")
  | .case4 cond val ow =>
    openTag "piecewise" []
      ++ ((openTag "piece" [] ++ (recursive_tree_to_sax val
            ++ (recursive_tree_to_sax cond ++ closeTag "piece")))
        ++ ((openTag "otherwise" [] ++ (recursive_tree_to_sax ow ++ closeTag "otherwise"))
          ++ closeTag "piecewise"))
  | .list items => openTag "list" [] ++ (emitAll items ++ closeTag "list")
  | .interval cl items =>
    openTag "interval" [("closure", if cl = "" then "closed" else cl)]
      ++ (emitAll items ++ closeTag "interval")
termination_by structural t => t

/-- The operand walk shared by `_send_function` and `_send_list`
(`for elem in islice(tree, 1, None): tree_to_sax(elem)`). -/
def emitAll : Trees → List Event
  | .nil => []
  | .cons t ts => recursive_tree_to_sax t ++ emitAll ts
termination_by structural ts => ts

end

/-- `SaxTerm._send_function`: `<apply>` `<fname/>` operand events `</apply>`
(inlined in both `apply` branches of `recursive_tree_to_sax` above). -/
def sendFunction (fname : String) (args : Trees) : List Event :=
  openTag "apply" [] ++ writeElement fname "" [] ++ emitAll args ++ closeTag "apply"

/-- `SaxTerm.tree_to_sax`: document start, one prefix-mapping declaration of
the MathML namespace, the recursive walk, and the matching bracket events. -/
def tree_to_sax (t : Tree) : List Event :=
  [Event.startDocument, Event.startPrefixMapping MATHML_NAMESPACE_URI]
    ++ recursive_tree_to_sax t
    ++ [Event.endPrefixMapping, Event.endDocument]

mutual

/-- Modelled from the spec: the DOM node view consumed by `dom_to_tree`
(`mathdom.py` is not under `src/`).  An element carries its local name, its
attributes and its child nodes; character data becomes a text node. -/
inductive XNode where
  | elem (name : String) (attrs : List (String × String)) (children : XNodes)
  | text (s : String)

/-- Child-node sequences (`childNodes`). -/
inductive XNodes where
  | nil
  | cons (n : XNode) (ns : XNodes)

end

/-- Concatenation of child-node sequences. -/
def XNodes.append : XNodes → XNodes → XNodes
  | .nil, ys => ys
  | .cons x xs, ys => .cons x (XNodes.append xs ys)

instance : Append XNodes := ⟨XNodes.append⟩

/-- Length of a child-node sequence (`len(children)`). -/
def XNodes.length : XNodes → Nat
  | .nil => 0
  | .cons _ ns => ns.length + 1

/-- `childNodes` of a DOM node; a text node has none. -/
def XNode.childNodes : XNode → XNodes
  | .elem _ _ cs => cs
  | .text _ => .nil

/-- `localName` of a DOM node.  For a text node Python yields `None`,
which no claim exercises; it is modelled as the empty string. -/
def XNode.localName : XNode → String
  | .elem n _ _ => n
  | .text _ => ""

/-- Attribute lookup (`AttributesNSImpl` keyed by `(None, name)`). -/
def getAttr : List (String × String) → String → Option String
  | [], _ => Option.none
  | (k, v) :: rest, n => if k = n then some v else getAttr rest n

/-- Modelled from the spec: the document assembly `mathdom` performs on the
SAX events (`MathDOM.fromMathmlSax` is not under `src/`).  `stack` holds the
open elements (name, attributes, elder siblings); `current` collects the
children of the innermost open element, in document order. -/
structure BState where
  stack : List (String × List (String × String) × XNodes)
  current : XNodes

/-- Modelled from the spec: one SAX event applied to the assembly state.
Element events must nest properly; document and prefix-mapping events do not
touch the tree. -/
def buildStep (st? : Option BState) (e : Event) : Option BState :=
  match st?, e with
  | Option.none, _ => Option.none
  | some st, .startElement _ n a => some ⟨(n, a, st.current) :: st.stack, .nil⟩
  | some st, .endElement _ n =>
    match st.stack with
    | [] => Option.none
    | (m, a, sib) :: t =>
      if n = m then some ⟨t, sib ++ XNodes.cons (XNode.elem m a st.current) XNodes.nil⟩
      else Option.none
  | some st, .characters s =>
    some ⟨st.stack, st.current ++ XNodes.cons (XNode.text s) XNodes.nil⟩
  | some st, _ => some st

/-- Modelled from the spec: assemble a document from an event stream and
return its `documentElement` (the unique top-level element). -/
def documentElement (evs : List Event) : Option XNode :=
  match evs.foldl buildStep (some ⟨[], .nil⟩) with
  | some ⟨[], XNodes.cons root XNodes.nil⟩ => some root
  | _ => Option.none

mutual

/-- The document subtree the emitter's event stream assembles to, written
directly by recursion over the AST (proved against `buildStep` below). -/
def domOf : Tree → XNode
  | .apply op args =>
    match map_operator op with
    | some m => .elem "apply" [] (.cons (.elem m [] .nil) (domList args))
    | none =>
      if op = "name" ∨ tagHead 6 op = "const:" ∨ op = "case" then
        .elem "apply" [] (.cons (.elem op [] .nil) (domList args))
      else if tagHead 4 op = "list" then
        .elem "list" [] (domList args)
      else if tagHead 9 op = "interval:" then
        .elem "interval" [("closure", if tagTail 9 op = "" then "closed" else tagTail 9 op)]
          (domList args)
      else
        .elem "apply" [] (.cons (.elem op [] .nil) (domList args))
  | .name id =>
    match map_constant id with
    | some c => .elem c [] .nil
    | none => .elem "ci" [] (if id = "" then .nil else .cons (.text id) .nil)
  | .constBool b => .elem (if b then "true" else "false") [] .nil
  | .constPair kind p1 p2 =>
    .elem "cn" [("type", if kind = "enotation" then "e-notation" else kind)]
      (.cons (.text p1) (.cons (.elem "sep" [] .nil) (.cons (.text p2) .nil)))
  | .constNum kind v =>
    .elem "cn" [("type", kind)] (if v = "" then .nil else .cons (.text v) .nil)
  | .case3 cond val =>
    .elem "piecewise" []
      (.cons (.elem "piece" [] (.cons (domOf val) (.cons (domOf cond) .nil))) .nil)
  | .case4 cond val ow =>
    .elem "piecewise" []
      (.cons (.elem "piece" [] (.cons (domOf val) (.cons (domOf cond) .nil)))
        (.cons (.elem "otherwise" [] (.cons (domOf ow) .nil)) .nil))
  | .list items => .elem "list" [] (domList items)
  | .interval cl items =>
    .elem "interval" [("closure", if cl = "" then "closed" else cl)] (domList items)
termination_by structural t => t

/-- `domOf` over operand sequences. -/
def domList : Trees → XNodes
  | .nil => .nil
  | .cons t ts => .cons (domOf t) (domList ts)
termination_by structural ts => ts

end

/-- `element.valuetype().replace('-', '')` (`dom_to_tree` line 321): drop
every dash from the value-type string. -/
def removeDashes (s : String) : String := String.mk (s.data.filter (fun c => c != '-'))

/-- The right-nested `Case` chain of `_recursive_piecewise`: each clause's
"value when false" slot holds the next clause, the optional otherwise is
appended to the innermost (last) case list. -/
def nestCases : List (Tree × Tree) → Option Tree → Option Tree
  | [], ow => ow
  | (c, v) :: rest, ow =>
    match nestCases rest ow with
    | some t => some (.case4 c v t)
    | Option.none => some (.case3 c v)

/-- Right-nesting with a default in the innermost case, the shape
`Case(cond1, val1, Case(cond2, val2, …, default))`. -/
def nestWithDefault : List (Tree × Tree) → Tree → Tree
  | [], d => d
  | (c, v) :: rest, d => .case4 c v (nestWithDefault rest d)

/-- The tail of `_recursive_piecewise` after the child loop: return the
otherwise alone when no `piece` was seen, fail on `case[0]` (an `IndexError`
in the source) when there was neither, else the nested chain. -/
def assembleCases (cs : List (Tree × Tree)) (ow : Option Tree) : Except String Tree :=
  match nestCases cs ow with
  | some t => .ok t
  | Option.none => .error "piecewise element has no pieces and no otherwise"

mutual

/-- `_recursive_dom_to_tree`, branch for branch.  `mathtype()` is modelled
from the spec as the element kind (local name); a text node in tree position
is an `AttributeError` in the source, modelled as an error.  `valuetype()` is
modelled from the spec as the `type` attribute (MathML's default numeric type
`real` when absent — emitted documents always carry the attribute), `value()`
as the text content, two-part when a `sep` child splits it, and `closure()`
as the `closure` attribute defaulting to `closed`. -/
def recursive_dom_to_tree : XNode → Except String Tree
  | .text _ => .error "text node has no mathtype"
  | .elem mtype attrs children =>
    match map_constant_inv mtype with
    | some c =>
      if c = "true" then .ok (.constBool true)
      else if c = "false" then .ok (.constBool false)
      else .ok (.name c)
    | Option.none =>
      if mtype = "ci" then
        match children with
        | .cons (.text s) _ => .ok (.name s)
        | _ => .error "ci element has no character data"
      else if mtype = "cn" then
        match children with
        | .cons (.text v) .nil =>
          .ok (.constNum (removeDashes ((getAttr attrs "type").getD "real")) v)
        | .cons (.text a) (.cons (.elem "sep" _ _) (.cons (.text b) .nil)) =>
          .ok (.constPair (removeDashes ((getAttr attrs "type").getD "real")) a b)
        | _ => .error "cn element is not a scalar or a two-part constant"
      else if mtype = "apply" then
        match children with
        | .nil => .error "apply element has no operator child"
        | .cons op rest =>
          match op.childNodes with
          | .cons _ _ => .error "function composition is not supported"
          | .nil =>
            match recursive_dom_to_trees rest with
            | .ok operands =>
              .ok (.apply ((map_operator_inv op.localName).getD op.localName) operands)
            | .error e => .error e
      else if mtype = "piecewise" then
        match recursive_piecewise_children children with
        | .ok (cs, ow) => assembleCases cs ow
        | .error e => .error e
      else if mtype = "list" then
        match recursive_dom_to_trees children with
        | .ok items => .ok (.list items)
        | .error e => .error e
      else if mtype = "interval" then
        match recursive_dom_to_trees children with
        | .ok items => .ok (.interval ((getAttr attrs "closure").getD "closed") items)
        | .error e => .error e
      else .error (mtype ++ " elements are not supported")
termination_by structural x => x

/-- `map(_recursive_dom_to_tree, …)` over sibling nodes, first error wins. -/
def recursive_dom_to_trees : XNodes → Except String Trees
  | .nil => .ok .nil
  | .cons x xs =>
    match recursive_dom_to_tree x with
    | .ok t =>
      match recursive_dom_to_trees xs with
      | .ok ts => .ok (.cons t ts)
      | .error e => .error e
    | .error e => .error e
termination_by structural ns => ns

/-- The child loop of `_recursive_piecewise`, functionalized: collect the
`(condition, value)` clause of each `piece` child in order (`_piece_to_case`:
exactly two children, first the value, then the condition) and the extraction
of the last `otherwise` child's first child; any other child fails.  The
source's mutating `last_case.append` chain is reproduced by `nestCases`. -/
def recursive_piecewise_children :
    XNodes → Except String (List (Tree × Tree) × Option Tree)
  | .nil => .ok ([], Option.none)
  | .cons (.elem nm _ gk) rest =>
    if nm = "piece" then
      match gk with
      | .cons v (.cons c .nil) =>
        match recursive_dom_to_tree v with
        | .ok tv =>
          match recursive_dom_to_tree c with
          | .ok tc =>
            match recursive_piecewise_children rest with
            | .ok (cs, ow) => .ok ((tc, tv) :: cs, ow)
            | .error e => .error e
          | .error e => .error e
        | .error e => .error e
      | _ =>
        .error ("piece element has " ++ toString (XNodes.length gk)
          ++ " children, 2 allowed")
    else if nm = "otherwise" then
      match gk with
      | .cons f _ =>
        match recursive_dom_to_tree f with
        | .ok t =>
          match recursive_piecewise_children rest with
          | .ok (cs, ow) => .ok (cs, some (ow.getD t))
          | .error e => .error e
        | .error e => .error e
      | .nil => .error "otherwise element has no children"
    else .error ("Unknown element in piecewise: " ++ nm)
  | .cons (.text _) _ => .error "Unknown element in piecewise: None"
termination_by structural ns => ns

end

/-- `dom_to_tree`: extraction from the document root.  The source's final
non-list fallback (`if not isinstance(tree, list)`) is unreachable, since
every branch of `_recursive_dom_to_tree` returns a list. -/
def dom_to_tree (root : XNode) : Except String Tree := recursive_dom_to_tree root

/-- `extract ∘ emit`: assemble the document from the emitted event stream
(spec-modelled `mathdom` step) and extract it. -/
def roundTrip (t : Tree) : Except String Tree :=
  match documentElement (tree_to_sax t) with
  | some root => dom_to_tree root
  | Option.none => .error "event stream did not assemble to a document"

mutual

/-- The ASTs on which the markup round trip can be the identity, i.e. the
image of the source's tagged-list representation minus the colliding corners:
an application's operator is either a table symbol other than `<>` (the
inverse table sends `neq` to `!=`), or an identifier that is not itself a
reserved tag or tag prefix (`name`, `const:*`, `case` are the other node
kinds' encodings, and a `list*` or `interval:*` identifier dispatches to
collection markup that discards it) and not one of the emitted operator
element names (those extract back to the table symbol); a
name identifier is nonempty (an empty `<ci/>` crashes extraction) and not a
boolean word (those emit boolean-constant markup, claim C9); scalar constant
kinds are dashless and distinct from the reserved payload kinds; two-part
constant kinds are exactly the three two-part variants; an interval closure
is nonempty (the emitter replaces an empty closure by `closed`). -/
def rt_safe : Tree → Bool
  | .apply op args =>
    (match map_operator op with
     | some _ => op != "<>"
     | Option.none =>
       !(op == "name" || tagHead 6 op == "const:" || op == "case"
          || tagHead 4 op == "list" || tagHead 9 op == "interval:")
         && (map_operator_inv op).isNone) && rt_safeList args
  | .name id => id != "" && id != "true" && id != "false"
  | .constBool _ => true
  | .constPair kind _ _ =>
    kind == "complex" || kind == "rational" || kind == "enotation"
  | .constNum kind v =>
    v != "" && removeDashes kind == kind
      && !(kind == "bool" || kind == "complex" || kind == "rational" || kind == "enotation")
  | .case3 cond val => rt_safe cond && rt_safe val
  | .case4 cond val ow => rt_safe cond && rt_safe val && rt_safe ow
  | .list items => rt_safeList items
  | .interval cl items => cl != "" && rt_safeList items
termination_by structural t => t

/-- `rt_safe` over operand sequences. -/
def rt_safeList : Trees → Bool
  | .nil => true
  | .cons t ts => rt_safe t && rt_safeList ts
termination_by structural ts => ts

end

/-- Modelled from the spec (§6): the well-formedness check on the event
sequence delivered between the document brackets — element events nest
properly (LIFO) and every element name carries the single MathML namespace;
character data may appear anywhere.  A fold ending in `some []` from `some []`
means the sequence is one balanced forest of namespaced elements. -/
def nsStackStep (st? : Option (List String)) (e : Event) : Option (List String) :=
  match st?, e with
  | some st, .startElement ns n _ =>
    if ns = MATHML_NAMESPACE_URI then some (n :: st) else Option.none
  | some st, .endElement ns n =>
    match st with
    | m :: rest => if ns = MATHML_NAMESPACE_URI ∧ n = m then some rest else Option.none
    | [] => Option.none
  | some st, .characters _ => some st
  | _, _ => Option.none

/-- A `piece` element holding an emitted (condition, value) clause — value
child first, then condition child, as `_send_case` writes them. -/
def pieceNode (cv : Tree × Tree) : XNode :=
  XNode.elem "piece" [] (XNodes.cons (domOf cv.2) (XNodes.cons (domOf cv.1) XNodes.nil))

/-- A sequence of emitted `piece` elements. -/
def piecesNodes : List (Tree × Tree) → XNodes
  | [] => XNodes.nil
  | cv :: rest => XNodes.cons (pieceNode cv) (piecesNodes rest)

/-- `rt_safe` on clause lists. -/
def rt_safePairs : List (Tree × Tree) → Bool
  | [] => true
  | (c, v) :: rest => rt_safe c && rt_safe v && rt_safePairs rest

@[simp] theorem XNodes.nil_append (x : XNodes) : XNodes.nil ++ x = x := rfl

@[simp] theorem XNodes.cons_append (a : XNode) (xs ys : XNodes) :
    XNodes.cons a xs ++ ys = XNodes.cons a (xs ++ ys) := rfl

@[simp] theorem XNodes.append_nil : ∀ x : XNodes, x ++ XNodes.nil = x
  | .nil => rfl
  | .cons a xs => by
    show XNodes.cons a (xs ++ XNodes.nil) = XNodes.cons a xs
    rw [XNodes.append_nil xs]

theorem XNodes.append_assoc : ∀ (a b c : XNodes), a ++ b ++ c = a ++ (b ++ c)
  | .nil, _, _ => rfl
  | .cons x xs, b, c => by
    show XNodes.cons x (xs ++ b ++ c) = XNodes.cons x (xs ++ (b ++ c))
    rw [XNodes.append_assoc xs b c]

@[simp] theorem XNodes.append_eq (a b : XNodes) : XNodes.append a b = a ++ b := rfl

theorem build_writeElement (n content : String) (a : List (String × String))
    (st : List (String × List (String × String) × XNodes)) (cur : XNodes) :
    List.foldl buildStep (some ⟨st, cur⟩) (writeElement n content a)
      = some ⟨st, cur ++ XNodes.cons
          (XNode.elem n a
            (if content = "" then XNodes.nil
             else XNodes.cons (XNode.text content) XNodes.nil)) XNodes.nil⟩ := by
  by_cases h : content = "" <;> simp [writeElement, h, buildStep]

theorem build_sendBinConstant (typename p1 p2 : String)
    (st : List (String × List (String × String) × XNodes)) (cur : XNodes) :
    List.foldl buildStep (some ⟨st, cur⟩) (sendBinConstant typename p1 p2)
      = some ⟨st, cur ++ XNodes.cons
          (XNode.elem "cn" [("type", typename)]
            (XNodes.cons (XNode.text p1)
              (XNodes.cons (XNode.elem "sep" [] XNodes.nil)
                (XNodes.cons (XNode.text p2) XNodes.nil)))) XNodes.nil⟩ := by
  simp [sendBinConstant, openTag, closeTag, writeElement, buildStep, List.foldl_append]

theorem build_seq {evs1 evs2 : List Event} {inner1 inner2 : XNodes}
    (h1 : ∀ st cur, List.foldl buildStep (some ⟨st, cur⟩) evs1 = some ⟨st, cur ++ inner1⟩)
    (h2 : ∀ st cur, List.foldl buildStep (some ⟨st, cur⟩) evs2 = some ⟨st, cur ++ inner2⟩) :
    ∀ st cur, List.foldl buildStep (some ⟨st, cur⟩) (evs1 ++ evs2)
      = some ⟨st, cur ++ (inner1 ++ inner2)⟩ := by
  intro st cur
  rw [List.foldl_append, h1, h2, XNodes.append_assoc]

theorem build_wrap1 (n : String) (a : List (String × String)) {evs : List Event}
    {inner : XNodes}
    (h : ∀ st cur, List.foldl buildStep (some ⟨st, cur⟩) evs = some ⟨st, cur ++ inner⟩) :
    ∀ st cur, List.foldl buildStep (some ⟨st, cur⟩) (openTag n a ++ (evs ++ closeTag n))
      = some ⟨st, cur ++ XNodes.cons (XNode.elem n a inner) XNodes.nil⟩ := by
  intro st cur
  rw [List.foldl_append, List.foldl_append]
  have h0 : List.foldl buildStep (some ⟨st, cur⟩) (openTag n a)
      = some ⟨(n, a, cur) :: st, XNodes.nil⟩ := rfl
  rw [h0, h]
  simp [closeTag, buildStep]

theorem build_wrap2 (n : String) (a : List (String × String)) {evs1 evs2 : List Event}
    {inner1 inner2 : XNodes}
    (h1 : ∀ st cur, List.foldl buildStep (some ⟨st, cur⟩) evs1 = some ⟨st, cur ++ inner1⟩)
    (h2 : ∀ st cur, List.foldl buildStep (some ⟨st, cur⟩) evs2 = some ⟨st, cur ++ inner2⟩) :
    ∀ st cur, List.foldl buildStep (some ⟨st, cur⟩)
        (openTag n a ++ (evs1 ++ (evs2 ++ closeTag n)))
      = some ⟨st, cur ++ XNodes.cons (XNode.elem n a (inner1 ++ inner2)) XNodes.nil⟩ := by
  intro st cur
  rw [List.foldl_append, List.foldl_append, List.foldl_append]
  have h0 : List.foldl buildStep (some ⟨st, cur⟩) (openTag n a)
      = some ⟨(n, a, cur) :: st, XNodes.nil⟩ := rfl
  rw [h0, h1, h2]
  simp [closeTag, buildStep, XNodes.append_assoc]

mutual

/-- Folding the document-assembly step over the emitted events of `t` appends
exactly the element `domOf t` to the children collected so far. -/
theorem build_emit : ∀ (t : Tree) (st : List (String × List (String × String) × XNodes))
    (cur : XNodes),
    List.foldl buildStep (some ⟨st, cur⟩) (recursive_tree_to_sax t)
      = some ⟨st, cur ++ XNodes.cons (domOf t) XNodes.nil⟩
  | .apply op args, st, cur => by
    rw [recursive_tree_to_sax, domOf]
    cases hop : map_operator op with
    | some m =>
      exact build_wrap2 "apply" [] (build_writeElement m "" []) (build_emitAll args) st cur
    | none =>
      by_cases h1 : op = "name" ∨ tagHead 6 op = "const:" ∨ op = "case"
      · simp only [if_pos h1]
        exact build_wrap2 "apply" [] (build_writeElement op "" []) (build_emitAll args) st cur
      · simp only [if_neg h1]
        by_cases h2 : tagHead 4 op = "list"
        · simp only [if_pos h2]
          exact build_wrap1 "list" [] (build_emitAll args) st cur
        · simp only [if_neg h2]
          by_cases h3 : tagHead 9 op = "interval:"
          · simp only [if_pos h3]
            exact build_wrap1 "interval"
              [("closure", if tagTail 9 op = "" then "closed" else tagTail 9 op)]
              (build_emitAll args) st cur
          · simp only [if_neg h3]
            exact build_wrap2 "apply" [] (build_writeElement op "" [])
              (build_emitAll args) st cur
  | .name id, st, cur => by
    rw [recursive_tree_to_sax]
    cases hc : map_constant id with
    | none => simp [build_writeElement, domOf, hc]
    | some c => simp [build_writeElement, domOf, hc]
  | .constBool b, st, cur => by
    rw [recursive_tree_to_sax]
    cases b <;> simp [build_writeElement, domOf]
  | .constPair kind p1 p2, st, cur => by
    rw [recursive_tree_to_sax]
    simp [build_sendBinConstant, domOf]
  | .constNum kind v, st, cur => by
    rw [recursive_tree_to_sax]
    simp [build_writeElement, domOf]
  | .case3 cond val, st, cur => by
    rw [recursive_tree_to_sax, domOf]
    exact build_wrap1 "piecewise" []
      (build_wrap2 "piece" [] (build_emit val) (build_emit cond)) st cur
  | .case4 cond val ow, st, cur => by
    rw [recursive_tree_to_sax, domOf]
    exact build_wrap2 "piecewise" []
      (build_wrap2 "piece" [] (build_emit val) (build_emit cond))
      (build_wrap1 "otherwise" [] (build_emit ow)) st cur
  | .list items, st, cur => by
    rw [recursive_tree_to_sax, domOf]
    exact build_wrap1 "list" [] (build_emitAll items) st cur
  | .interval cl items, st, cur => by
    rw [recursive_tree_to_sax, domOf]
    exact build_wrap1 "interval" [("closure", if cl = "" then "closed" else cl)]
      (build_emitAll items) st cur
termination_by structural t => t

/-- `build_emit` over operand sequences. -/
theorem build_emitAll : ∀ (ts : Trees) (st : List (String × List (String × String) × XNodes))
    (cur : XNodes),
    List.foldl buildStep (some ⟨st, cur⟩) (emitAll ts) = some ⟨st, cur ++ domList ts⟩
  | .nil, st, cur => by simp [emitAll, domList]
  | .cons t ts, st, cur => by
    rw [emitAll, List.foldl_append, build_emit t, build_emitAll ts, domList,
      XNodes.append_assoc]
    rfl
termination_by structural ts => ts

end

/-- The emitted event stream of any AST assembles to a document whose
document element is `domOf t`. -/
theorem documentElement_emit (t : Tree) : documentElement (tree_to_sax t) = some (domOf t) := by
  unfold documentElement tree_to_sax
  rw [List.foldl_append, List.foldl_append]
  have h0 : List.foldl buildStep (some ⟨[], XNodes.nil⟩)
      [Event.startDocument, Event.startPrefixMapping MATHML_NAMESPACE_URI]
        = some ⟨[], XNodes.nil⟩ := rfl
  rw [h0, build_emit t]
  rfl

set_option maxHeartbeats 1600000 in
/-- Except on `<>`, the inverse operator table undoes the operator table. -/
theorem map_operator_inv_of_map {op m : String} (h : map_operator op = some m)
    (hne : op ≠ "<>") : map_operator_inv m = some op := by
  unfold map_operator at h
  repeat' split at h
  all_goals injection h
  all_goals subst_vars
  all_goals rfl

set_option maxHeartbeats 800000 in
/-- The inverse constant table undoes the constant table (it is injective). -/
theorem map_constant_inv_of_map {id c : String} (h : map_constant id = some c) :
    map_constant_inv c = some id := by
  unfold map_constant at h
  repeat' split at h
  all_goals injection h
  all_goals subst_vars
  all_goals rfl

mutual

/-- Extraction undoes emission on every round-trippable AST: the document the
emitted events assemble to extracts back to the original tree. -/
theorem extract_domOf : ∀ (t : Tree), rt_safe t = true →
    recursive_dom_to_tree (domOf t) = .ok t
  | .apply op args, h => by
    rw [rt_safe] at h
    rw [Bool.and_eq_true] at h
    have hargs := extract_domList args h.2
    rw [domOf]
    cases hop : map_operator op with
    | some m =>
      have hne : op ≠ "<>" := by
        have := h.1
        rw [hop] at this
        simpa using this
      have hinv := map_operator_inv_of_map hop hne
      simp [recursive_dom_to_tree, map_constant_inv, XNode.childNodes, hargs,
        XNode.localName, hinv]
    | none =>
      have h1 := h.1
      rw [hop] at h1
      rw [Bool.and_eq_true] at h1
      obtain ⟨hspec, hinv⟩ := h1
      rw [Option.isNone_iff_eq_none] at hinv
      simp only [Bool.not_eq_true', Bool.or_eq_false_iff, beq_eq_false_iff_ne,
        ne_eq] at hspec
      simp [recursive_dom_to_tree, map_constant_inv, XNode.childNodes, hargs,
        XNode.localName, hinv, hspec]
  | .name id, h => by
    rw [rt_safe] at h
    simp only [Bool.and_eq_true, bne_iff_ne, ne_eq] at h
    obtain ⟨⟨h1, h2⟩, h3⟩ := h
    rw [domOf]
    cases hc : map_constant id with
    | some c =>
      have hinv := map_constant_inv_of_map hc
      simp [recursive_dom_to_tree, hinv, h2, h3]
    | none =>
      simp [recursive_dom_to_tree, map_constant_inv, h1]
  | .constBool b, _ => by cases b <;> rfl
  | .constPair kind p1 p2, h => by
    rw [rt_safe] at h
    simp only [Bool.or_eq_true, beq_iff_eq] at h
    rcases h with (rfl | rfl) | rfl <;> rfl
  | .constNum kind v, h => by
    rw [rt_safe] at h
    simp only [Bool.and_eq_true, bne_iff_ne, ne_eq, beq_iff_eq] at h
    obtain ⟨⟨hv, hk⟩, _⟩ := h
    rw [domOf, if_neg hv]
    simp [recursive_dom_to_tree, map_constant_inv, getAttr, hk]
  | .case3 cond val, h => by
    rw [rt_safe] at h
    rw [Bool.and_eq_true] at h
    have hc := extract_domOf cond h.1
    have hv := extract_domOf val h.2
    rw [domOf]
    simp [recursive_dom_to_tree, map_constant_inv, recursive_piecewise_children,
      hc, hv, assembleCases, nestCases]
  | .case4 cond val ow, h => by
    rw [rt_safe] at h
    simp only [Bool.and_eq_true] at h
    have hc := extract_domOf cond h.1.1
    have hv := extract_domOf val h.1.2
    have ho := extract_domOf ow h.2
    rw [domOf]
    simp [recursive_dom_to_tree, map_constant_inv, recursive_piecewise_children,
      hc, hv, ho, assembleCases, nestCases]
  | .list items, h => by
    rw [rt_safe] at h
    have hi := extract_domList items h
    rw [domOf]
    simp [recursive_dom_to_tree, map_constant_inv, hi]
  | .interval cl items, h => by
    rw [rt_safe] at h
    rw [Bool.and_eq_true] at h
    have hi := extract_domList items h.2
    have hcl : cl ≠ "" := by simpa using h.1
    rw [domOf, if_neg hcl]
    simp [recursive_dom_to_tree, map_constant_inv, hi, getAttr]
termination_by structural t => t

/-- `extract_domOf` over operand sequences. -/
theorem extract_domList : ∀ (ts : Trees), rt_safeList ts = true →
    recursive_dom_to_trees (domList ts) = .ok ts
  | .nil, _ => rfl
  | .cons t ts, h => by
    rw [rt_safeList] at h
    rw [Bool.and_eq_true] at h
    have h1 := extract_domOf t h.1
    have h2 := extract_domList ts h.2
    rw [domList]
    simp [recursive_dom_to_trees, h1, h2]
termination_by structural ts => ts

end

/-- The markup round trip is the identity on every round-trippable AST. -/
theorem roundTrip_rt_safe (t : Tree) (h : rt_safe t = true) : roundTrip t = .ok t := by
  unfold roundTrip
  rw [documentElement_emit]
  exact extract_domOf t h

theorem ns_writeElement (n content : String) (a : List (String × String)) :
    ∀ st : List String,
      List.foldl nsStackStep (some st) (writeElement n content a) = some st := by
  intro st
  by_cases h : content = "" <;> simp [writeElement, h, nsStackStep]

theorem ns_sendBinConstant (ty p1 p2 : String) :
    ∀ st : List String,
      List.foldl nsStackStep (some st) (sendBinConstant ty p1 p2) = some st := by
  intro st
  simp [sendBinConstant, openTag, closeTag, writeElement, nsStackStep, List.foldl_append]

theorem ns_wrap1 (n : String) (a : List (String × String)) {evs : List Event}
    (h : ∀ st : List String, List.foldl nsStackStep (some st) evs = some st) :
    ∀ st : List String,
      List.foldl nsStackStep (some st) (openTag n a ++ (evs ++ closeTag n)) = some st := by
  intro st
  rw [List.foldl_append, List.foldl_append]
  have h0 : List.foldl nsStackStep (some st) (openTag n a) = some (n :: st) := by
    simp [openTag, nsStackStep]
  rw [h0, h]
  simp [closeTag, nsStackStep]

theorem ns_wrap2 (n : String) (a : List (String × String)) {evs1 evs2 : List Event}
    (h1 : ∀ st : List String, List.foldl nsStackStep (some st) evs1 = some st)
    (h2 : ∀ st : List String, List.foldl nsStackStep (some st) evs2 = some st) :
    ∀ st : List String,
      List.foldl nsStackStep (some st) (openTag n a ++ (evs1 ++ (evs2 ++ closeTag n)))
        = some st := by
  intro st
  rw [List.foldl_append, List.foldl_append, List.foldl_append]
  have h0 : List.foldl nsStackStep (some st) (openTag n a) = some (n :: st) := by
    simp [openTag, nsStackStep]
  rw [h0, h1, h2]
  simp [closeTag, nsStackStep]

mutual

/-- The recursive emission walk is namespace-uniform and properly bracketed:
folding the nesting check over it returns the stack unchanged. -/
theorem ns_emit : ∀ (t : Tree) (st : List String),
    List.foldl nsStackStep (some st) (recursive_tree_to_sax t) = some st
  | .apply op args, st => by
    rw [recursive_tree_to_sax]
    cases hop : map_operator op with
    | some m => exact ns_wrap2 "apply" [] (ns_writeElement m "" []) (ns_emitAll args) st
    | none =>
      by_cases h1 : op = "name" ∨ tagHead 6 op = "const:" ∨ op = "case"
      · simp only [if_pos h1]
        exact ns_wrap2 "apply" [] (ns_writeElement op "" []) (ns_emitAll args) st
      · simp only [if_neg h1]
        by_cases h2 : tagHead 4 op = "list"
        · simp only [if_pos h2]
          exact ns_wrap1 "list" [] (ns_emitAll args) st
        · simp only [if_neg h2]
          by_cases h3 : tagHead 9 op = "interval:"
          · simp only [if_pos h3]
            exact ns_wrap1 "interval"
              [("closure", if tagTail 9 op = "" then "closed" else tagTail 9 op)]
              (ns_emitAll args) st
          · simp only [if_neg h3]
            exact ns_wrap2 "apply" [] (ns_writeElement op "" []) (ns_emitAll args) st
  | .name id, st => by
    rw [recursive_tree_to_sax]
    cases hc : map_constant id with
    | some c => exact ns_writeElement c "" [] st
    | none => exact ns_writeElement "ci" id [] st
  | .constBool b, st => by
    rw [recursive_tree_to_sax]
    exact ns_writeElement (if b then "true" else "false") "" [] st
  | .constPair kind p1 p2, st => by
    rw [recursive_tree_to_sax]
    exact ns_sendBinConstant (if kind = "enotation" then "e-notation" else kind) p1 p2 st
  | .constNum kind v, st => by
    rw [recursive_tree_to_sax]
    exact ns_writeElement "cn" v [("type", kind)] st
  | .case3 cond val, st => by
    rw [recursive_tree_to_sax]
    exact ns_wrap1 "piecewise" [] (ns_wrap2 "piece" [] (ns_emit val) (ns_emit cond)) st
  | .case4 cond val ow, st => by
    rw [recursive_tree_to_sax]
    exact ns_wrap2 "piecewise" []
      (ns_wrap2 "piece" [] (ns_emit val) (ns_emit cond))
      (ns_wrap1 "otherwise" [] (ns_emit ow)) st
  | .list items, st => by
    rw [recursive_tree_to_sax]
    exact ns_wrap1 "list" [] (ns_emitAll items) st
  | .interval cl items, st => by
    rw [recursive_tree_to_sax]
    exact ns_wrap1 "interval" [("closure", if cl = "" then "closed" else cl)]
      (ns_emitAll items) st
termination_by structural t => t

/-- `ns_emit` over operand sequences. -/
theorem ns_emitAll : ∀ (ts : Trees) (st : List String),
    List.foldl nsStackStep (some st) (emitAll ts) = some st
  | .nil, _ => rfl
  | .cons t ts, st => by
    rw [emitAll, List.foldl_append, ns_emit t, ns_emitAll ts]
termination_by structural ts => ts

end

/-- `nestCases` with a present otherwise is exactly the right-nested chain
with the default in the innermost case. -/
theorem nestCases_some : ∀ (cs : List (Tree × Tree)) (d : Tree),
    nestCases cs (some d) = some (nestWithDefault cs d)
  | [], _ => rfl
  | (c, v) :: rest, d => by
    rw [nestCases, nestCases_some rest d, nestWithDefault]

/-- The piecewise child loop on emitted pieces followed by an emitted
otherwise collects the clauses in order and the default. -/
theorem piecewise_children_pieces :
    ∀ (cs : List (Tree × Tree)) (d : Tree) (oa : List (String × String)),
    rt_safePairs cs = true → rt_safe d = true →
    recursive_piecewise_children
        (piecesNodes cs
          ++ XNodes.cons (XNode.elem "otherwise" oa (XNodes.cons (domOf d) XNodes.nil))
            XNodes.nil)
      = .ok (cs, some d)
  | [], d, oa, _, hd => by
    simp [piecesNodes, recursive_piecewise_children, extract_domOf d hd]
  | (c, v) :: rest, d, oa, hcs, hd => by
    simp only [rt_safePairs, Bool.and_eq_true] at hcs
    obtain ⟨⟨hc, hv⟩, hrest⟩ := hcs
    have ih := piecewise_children_pieces rest d oa hrest hd
    simp [piecesNodes, pieceNode, recursive_piecewise_children,
      extract_domOf c hc, extract_domOf v hv, ih]


/-- Taking a shorter head of a longer head takes the shorter head. -/
theorem tagHead_tagHead {m n : Nat} (h : m ≤ n) (s : String) :
    tagHead m (tagHead n s) = tagHead m s := by
  unfold tagHead
  simp [List.take_take, Nat.min_eq_left h]

/-- C1 (corrected).  The claim "for every AST, `dom_to_tree` of the event
stream produced by `tree_to_sax` equals the AST" fails: `Name("false")` emits
the boolean-constant element and extracts to `Const(Bool false)`. -/
theorem C1_counterexample :
    roundTrip (Tree.name "false") = .ok (Tree.constBool false)
      ∧ roundTrip (Tree.name "false") ≠ .ok (Tree.name "false") := by
  refine ⟨rfl, ?_⟩
  intro h
  exact Tree.noConfusion (Except.ok.inj h)

/-- C1 (amended): the markup round trip `dom_to_tree ∘ assemble ∘ tree_to_sax`
is the identity on every AST in which no Name identifier is empty, `true` or
`false`, no Apply operator is `<>`, every Apply operator outside the operator
table is an ordinary identifier (not a reserved AST tag and not one of the
emitted operator element names), numeric constant kinds are dashless and
distinct from the two-part payload kinds, two-part constant kinds are
complex/rational/enotation, and every interval closure is nonempty. -/
theorem C1_roundtrip_amended (t : Tree) (h : rt_safe t = true) : roundTrip t = .ok t :=
  roundTrip_rt_safe t h

/-- Witness for C1: a concrete round-trippable AST round-trips. -/
theorem C1_roundtrip_amended_witness :
    rt_safe (Tree.case4
        (Tree.apply "<=" (Trees.cons (Tree.name "x")
          (Trees.cons (Tree.constNum "integer" "1") Trees.nil)))
        (Tree.constPair "rational" "1" "2") (Tree.name "pi")) = true
      ∧ roundTrip (Tree.case4
          (Tree.apply "<=" (Trees.cons (Tree.name "x")
            (Trees.cons (Tree.constNum "integer" "1") Trees.nil)))
          (Tree.constPair "rational" "1" "2") (Tree.name "pi"))
        = .ok (Tree.case4
            (Tree.apply "<=" (Trees.cons (Tree.name "x")
              (Trees.cons (Tree.constNum "integer" "1") Trees.nil)))
            (Tree.constPair "rational" "1" "2") (Tree.name "pi")) :=
  ⟨rfl, C1_roundtrip_amended _ rfl⟩

/-- C2 (corrected).  The claim says an unmapped operator such as `sin` is
wrapped in a `ci` element; the emitter in fact writes the identifier directly
as an empty element name (`_send_function` calls `_write_element(fname)`). -/
theorem C2_counterexample :
    recursive_tree_to_sax (Tree.apply "sin" (Trees.cons (Tree.name "x") Trees.nil))
        = [Event.startElement MATHML_NAMESPACE_URI "apply" [],
           Event.startElement MATHML_NAMESPACE_URI "sin" [],
           Event.endElement MATHML_NAMESPACE_URI "sin",
           Event.startElement MATHML_NAMESPACE_URI "ci" [],
           Event.characters "x",
           Event.endElement MATHML_NAMESPACE_URI "ci",
           Event.endElement MATHML_NAMESPACE_URI "apply"]
      ∧ recursive_tree_to_sax (Tree.apply "sin" (Trees.cons (Tree.name "x") Trees.nil))
        ≠ [Event.startElement MATHML_NAMESPACE_URI "apply" [],
           Event.startElement MATHML_NAMESPACE_URI "ci" [],
           Event.characters "sin",
           Event.endElement MATHML_NAMESPACE_URI "ci",
           Event.startElement MATHML_NAMESPACE_URI "ci" [],
           Event.characters "x",
           Event.endElement MATHML_NAMESPACE_URI "ci",
           Event.endElement MATHML_NAMESPACE_URI "apply"] := by
  refine ⟨rfl, ?_⟩
  decide

/-- C2 (amended): for every Apply node whose operator is outside the fixed
operator table, emission dispatches on the identifier exactly as the source
does: an ordinary identifier — not a reserved tag (`name`, `const:*`,
`case`) and not beginning with `list` or `interval:` — produces
`<apply><NAME/> operand-events…</apply>`, the identifier used directly as an
empty element's name rather than wrapped in a `ci` element; an identifier
whose first four characters are `list` instead produces
`<list> operand-events…</list>` with the identifier discarded; and one
beginning with `interval:` produces interval markup whose closure attribute
is read from the tag remainder (`closed` when empty). -/
theorem C2_function_identifier_element :
    (∀ (op : String) (args : Trees),
      map_operator op = none →
      op ≠ "name" → tagHead 6 op ≠ "const:" → op ≠ "case" →
      tagHead 4 op ≠ "list" → tagHead 9 op ≠ "interval:" →
      recursive_tree_to_sax (Tree.apply op args)
        = [Event.startElement MATHML_NAMESPACE_URI "apply" []]
          ++ ([Event.startElement MATHML_NAMESPACE_URI op [],
               Event.endElement MATHML_NAMESPACE_URI op]
            ++ (emitAll args ++ [Event.endElement MATHML_NAMESPACE_URI "apply"])))
      ∧ (∀ (op : String) (args : Trees),
        map_operator op = none → tagHead 4 op = "list" →
        recursive_tree_to_sax (Tree.apply op args)
          = [Event.startElement MATHML_NAMESPACE_URI "list" []]
            ++ (emitAll args ++ [Event.endElement MATHML_NAMESPACE_URI "list"]))
      ∧ (∀ (op : String) (args : Trees),
        map_operator op = none → tagHead 9 op = "interval:" →
        recursive_tree_to_sax (Tree.apply op args)
          = [Event.startElement MATHML_NAMESPACE_URI "interval"
               [("closure", if tagTail 9 op = "" then "closed" else tagTail 9 op)]]
            ++ (emitAll args ++ [Event.endElement MATHML_NAMESPACE_URI "interval"])) := by
  refine ⟨?_, ?_, ?_⟩
  · intro op args h hn hc hca hl hi
    rw [recursive_tree_to_sax, h,
      if_neg (show ¬(op = "name" ∨ tagHead 6 op = "const:" ∨ op = "case") from
        fun h1 => h1.elim hn (fun h2 => h2.elim hc hca)),
      if_neg hl, if_neg hi]
    rfl
  · intro op args h hl
    have hn : op ≠ "name" := by
      rintro rfl
      exact absurd hl (by decide)
    have hca : op ≠ "case" := by
      rintro rfl
      exact absurd hl (by decide)
    have hc : tagHead 6 op ≠ "const:" := by
      intro hc6
      have h4 := tagHead_tagHead (show 4 ≤ 6 by decide) op
      rw [hc6, hl] at h4
      exact absurd h4 (by decide)
    rw [recursive_tree_to_sax, h,
      if_neg (show ¬(op = "name" ∨ tagHead 6 op = "const:" ∨ op = "case") from
        fun h1 => h1.elim hn (fun h2 => h2.elim hc hca)),
      if_pos hl]
    rfl
  · intro op args h hi
    have hn : op ≠ "name" := by
      rintro rfl
      exact absurd hi (by decide)
    have hca : op ≠ "case" := by
      rintro rfl
      exact absurd hi (by decide)
    have hc : tagHead 6 op ≠ "const:" := by
      intro hc6
      have h6 := tagHead_tagHead (show 6 ≤ 9 by decide) op
      rw [hc6, hi] at h6
      exact absurd h6 (by decide)
    have hl : tagHead 4 op ≠ "list" := by
      intro hl4
      have h4 := tagHead_tagHead (show 4 ≤ 9 by decide) op
      rw [hl4, hi] at h4
      exact absurd h4 (by decide)
    rw [recursive_tree_to_sax, h,
      if_neg (show ¬(op = "name" ∨ tagHead 6 op = "const:" ∨ op = "case") from
        fun h1 => h1.elim hn (fun h2 => h2.elim hc hca)),
      if_neg hl, if_pos hi]
    rfl

/-- Witness for C2: `sin` is an ordinary identifier and emits the
direct-element apply form; `listsum` emits list markup with the identifier
discarded; `interval:open` emits interval markup with closure `open`. -/
theorem C2_function_identifier_element_witness :
    (map_operator "sin" = none ∧ "sin" ≠ "name" ∧ tagHead 6 "sin" ≠ "const:"
      ∧ "sin" ≠ "case" ∧ tagHead 4 "sin" ≠ "list" ∧ tagHead 9 "sin" ≠ "interval:"
      ∧ recursive_tree_to_sax (Tree.apply "sin" (Trees.cons (Tree.name "y") Trees.nil))
        = [Event.startElement MATHML_NAMESPACE_URI "apply" []]
          ++ ([Event.startElement MATHML_NAMESPACE_URI "sin" [],
               Event.endElement MATHML_NAMESPACE_URI "sin"]
            ++ (emitAll (Trees.cons (Tree.name "y") Trees.nil)
              ++ [Event.endElement MATHML_NAMESPACE_URI "apply"])))
      ∧ (map_operator "listsum" = none ∧ tagHead 4 "listsum" = "list"
        ∧ recursive_tree_to_sax
            (Tree.apply "listsum" (Trees.cons (Tree.name "y") Trees.nil))
          = [Event.startElement MATHML_NAMESPACE_URI "list" []]
            ++ (emitAll (Trees.cons (Tree.name "y") Trees.nil)
              ++ [Event.endElement MATHML_NAMESPACE_URI "list"]))
      ∧ (map_operator "interval:open" = none ∧ tagHead 9 "interval:open" = "interval:"
        ∧ recursive_tree_to_sax
            (Tree.apply "interval:open" (Trees.cons (Tree.name "y") Trees.nil))
          = [Event.startElement MATHML_NAMESPACE_URI "interval"
               [("closure",
                 if tagTail 9 "interval:open" = "" then "closed"
                 else tagTail 9 "interval:open")]]
            ++ (emitAll (Trees.cons (Tree.name "y") Trees.nil)
              ++ [Event.endElement MATHML_NAMESPACE_URI "interval"])) :=
  ⟨⟨rfl, by decide, by decide, by decide, by decide, by decide,
      C2_function_identifier_element.1 "sin" (Trees.cons (Tree.name "y") Trees.nil)
        rfl (by decide) (by decide) (by decide) (by decide) (by decide)⟩,
    ⟨rfl, rfl,
      C2_function_identifier_element.2.1 "listsum"
        (Trees.cons (Tree.name "y") Trees.nil) rfl rfl⟩,
    ⟨rfl, rfl,
      C2_function_identifier_element.2.2 "interval:open"
        (Trees.cons (Tree.name "y") Trees.nil) rfl rfl⟩⟩

/-- C3 (corrected).  The claim says extraction also fails on an `interval`
element whose child count differs from 2; the code never checks the interval
arity: a three-child interval extracts to a three-item Collection. -/
theorem C3_counterexample :
    dom_to_tree (XNode.elem "interval" [("closure", "open")]
        (XNodes.cons (XNode.elem "ci" [] (XNodes.cons (XNode.text "a") XNodes.nil))
          (XNodes.cons (XNode.elem "ci" [] (XNodes.cons (XNode.text "b") XNodes.nil))
            (XNodes.cons (XNode.elem "ci" [] (XNodes.cons (XNode.text "c") XNodes.nil))
              XNodes.nil))))
      = .ok (Tree.interval "open"
          (Trees.cons (Tree.name "a") (Trees.cons (Tree.name "b")
            (Trees.cons (Tree.name "c") Trees.nil)))) := rfl

/-- C3 (amended): a `piece` element with child count ≠ 2 makes extraction
fail, but an `interval` element's child count is not checked — extraction
returns a Collection with however many items the children extract to. -/
theorem C3_piece_checked_interval_unchecked :
    (∀ (a pa : List (String × String)) (gk rest : XNodes),
      XNodes.length gk ≠ 2 →
      ∃ e, dom_to_tree
          (XNode.elem "piecewise" a (XNodes.cons (XNode.elem "piece" pa gk) rest))
        = .error e)
      ∧ (∀ (a : List (String × String)) (kids : XNodes) (ts : Trees),
        recursive_dom_to_trees kids = .ok ts →
        dom_to_tree (XNode.elem "interval" a kids)
          = .ok (Tree.interval ((getAttr a "closure").getD "closed") ts)) := by
  constructor
  · intro a pa gk rest hlen
    cases gk with
    | nil => exact ⟨_, rfl⟩
    | cons v gk1 =>
      cases gk1 with
      | nil => exact ⟨_, rfl⟩
      | cons c gk2 =>
        cases gk2 with
        | nil => exact absurd rfl hlen
        | cons w gk3 => exact ⟨_, rfl⟩
  · intro a kids ts h
    simp [dom_to_tree, recursive_dom_to_tree, map_constant_inv, h]

/-- Witness for C3: a one-child piece fails; a one-child interval extracts. -/
theorem C3_piece_checked_interval_unchecked_witness :
    (XNodes.length (XNodes.cons (XNode.text "x") XNodes.nil) ≠ 2
      ∧ ∃ e, dom_to_tree (XNode.elem "piecewise" []
          (XNodes.cons (XNode.elem "piece" [] (XNodes.cons (XNode.text "x") XNodes.nil))
            XNodes.nil)) = .error e)
      ∧ (recursive_dom_to_trees (XNodes.cons (XNode.elem "pi" [] XNodes.nil) XNodes.nil)
          = .ok (Trees.cons (Tree.name "pi") Trees.nil)
        ∧ dom_to_tree (XNode.elem "interval" [("closure", "closed")]
            (XNodes.cons (XNode.elem "pi" [] XNodes.nil) XNodes.nil))
          = .ok (Tree.interval "closed" (Trees.cons (Tree.name "pi") Trees.nil))) := by
  constructor
  · exact ⟨by decide, C3_piece_checked_interval_unchecked.1 [] [] _ _ (by decide)⟩
  · exact ⟨rfl, C3_piece_checked_interval_unchecked.2 [("closure", "closed")] _ _ rfl⟩

/-- C4 (confirmed): an `apply` element whose first child itself has children
is rejected as unsupported function composition; when the first child is a
leaf element, the remaining children become the operands in order, with the
operator symbol recovered through the inverse table (defaulting to the
element's local name). -/
theorem C4_apply_operator_leaf (a oa : List (String × String)) (opn : String)
    (oc rest : XNodes) :
    (oc ≠ XNodes.nil →
      dom_to_tree (XNode.elem "apply" a (XNodes.cons (XNode.elem opn oa oc) rest))
        = .error "function composition is not supported")
      ∧ (oc = XNodes.nil →
        ∀ ts : Trees, recursive_dom_to_trees rest = .ok ts →
          dom_to_tree (XNode.elem "apply" a (XNodes.cons (XNode.elem opn oa oc) rest))
            = .ok (Tree.apply ((map_operator_inv opn).getD opn) ts)) := by
  constructor
  · intro hne
    cases oc with
    | nil => exact absurd rfl hne
    | cons x xs => rfl
  · rintro rfl ts h
    simp [dom_to_tree, recursive_dom_to_tree, map_constant_inv, XNode.childNodes,
      XNode.localName, h]

/-- Witness for C4: a nested-apply operator position is rejected; a leaf
`<sin/>` operator yields the operands in order. -/
theorem C4_apply_operator_leaf_witness :
    (XNodes.cons (XNode.elem "ci" [] (XNodes.cons (XNode.text "f") XNodes.nil)) XNodes.nil
        ≠ XNodes.nil
      ∧ dom_to_tree (XNode.elem "apply" []
          (XNodes.cons
            (XNode.elem "apply" []
              (XNodes.cons (XNode.elem "ci" [] (XNodes.cons (XNode.text "f") XNodes.nil))
                XNodes.nil))
            XNodes.nil))
        = .error "function composition is not supported")
      ∧ (recursive_dom_to_trees
            (XNodes.cons (XNode.elem "ci" [] (XNodes.cons (XNode.text "x") XNodes.nil))
              XNodes.nil)
          = .ok (Trees.cons (Tree.name "x") Trees.nil)
        ∧ dom_to_tree (XNode.elem "apply" []
            (XNodes.cons (XNode.elem "sin" [] XNodes.nil)
              (XNodes.cons (XNode.elem "ci" [] (XNodes.cons (XNode.text "x") XNodes.nil))
                XNodes.nil)))
          = .ok (Tree.apply "sin" (Trees.cons (Tree.name "x") Trees.nil))) := by
  constructor
  · refine ⟨fun h => XNodes.noConfusion h,
      (C4_apply_operator_leaf [] [] "apply"
        (XNodes.cons (XNode.elem "ci" [] (XNodes.cons (XNode.text "f") XNodes.nil))
          XNodes.nil) XNodes.nil).1 (fun h => XNodes.noConfusion h)⟩
  · exact ⟨rfl,
      (C4_apply_operator_leaf [] [] "sin" XNodes.nil
        (XNodes.cons (XNode.elem "ci" [] (XNodes.cons (XNode.text "x") XNodes.nil))
          XNodes.nil)).2 rfl _ rfl⟩

/-- C5 (confirmed): emission writes each `piece` with the value's events
first and then the condition's events, an optional `otherwise` wrapping the
default afterwards; extraction reads a piece's two children as (value,
condition) in that order, so the clause it builds pairs the second child as
the condition with the first as the value. -/
theorem C5_case_value_condition_order :
    (∀ cond val : Tree,
      recursive_tree_to_sax (Tree.case3 cond val)
        = [Event.startElement MATHML_NAMESPACE_URI "piecewise" []]
          ++ (([Event.startElement MATHML_NAMESPACE_URI "piece" []]
              ++ (recursive_tree_to_sax val
                ++ (recursive_tree_to_sax cond
                  ++ [Event.endElement MATHML_NAMESPACE_URI "piece"])))
            ++ [Event.endElement MATHML_NAMESPACE_URI "piecewise"]))
      ∧ (∀ cond val ow : Tree,
        recursive_tree_to_sax (Tree.case4 cond val ow)
          = [Event.startElement MATHML_NAMESPACE_URI "piecewise" []]
            ++ (([Event.startElement MATHML_NAMESPACE_URI "piece" []]
                ++ (recursive_tree_to_sax val
                  ++ (recursive_tree_to_sax cond
                    ++ [Event.endElement MATHML_NAMESPACE_URI "piece"])))
              ++ (([Event.startElement MATHML_NAMESPACE_URI "otherwise" []]
                  ++ (recursive_tree_to_sax ow
                    ++ [Event.endElement MATHML_NAMESPACE_URI "otherwise"]))
                ++ [Event.endElement MATHML_NAMESPACE_URI "piecewise"])))
      ∧ (∀ (a pa : List (String × String)) (nv nc : XNode) (tv tc : Tree),
        dom_to_tree nv = .ok tv → dom_to_tree nc = .ok tc →
        dom_to_tree (XNode.elem "piecewise" a
            (XNodes.cons
              (XNode.elem "piece" pa (XNodes.cons nv (XNodes.cons nc XNodes.nil)))
              XNodes.nil))
          = .ok (Tree.case3 tc tv)) := by
  refine ⟨fun cond val => rfl, fun cond val ow => rfl, ?_⟩
  intro a pa nv nc tv tc hv hc
  simp only [dom_to_tree] at hv hc
  simp [dom_to_tree, recursive_dom_to_tree, map_constant_inv,
    recursive_piecewise_children, hv, hc, assembleCases, nestCases]

/-- Witness for C5: a concrete piece extracts with first child as value and
second as condition. -/
theorem C5_case_value_condition_order_witness :
    dom_to_tree (XNode.elem "cn" [("type", "integer")]
        (XNodes.cons (XNode.text "1") XNodes.nil))
      = .ok (Tree.constNum "integer" "1")
    ∧ dom_to_tree (XNode.elem "true" [] XNodes.nil) = .ok (Tree.constBool true)
    ∧ dom_to_tree (XNode.elem "piecewise" []
        (XNodes.cons (XNode.elem "piece" []
          (XNodes.cons
            (XNode.elem "cn" [("type", "integer")] (XNodes.cons (XNode.text "1") XNodes.nil))
            (XNodes.cons (XNode.elem "true" [] XNodes.nil) XNodes.nil)))
          XNodes.nil))
      = .ok (Tree.case3 (Tree.constBool true) (Tree.constNum "integer" "1")) :=
  ⟨rfl, rfl, C5_case_value_condition_order.2.2 [] [] _ _ _ _ rfl rfl⟩

/-- C6 (confirmed): a piecewise with two or more emitted pieces and an
otherwise extracts to right-nested cases, the next clause filling each
clause's value-when-false slot and the default sitting in the innermost
case: `Case(cond1, val1, Case(cond2, val2, …, default))`. -/
theorem C6_piecewise_nesting (cs : List (Tree × Tree)) (d : Tree)
    (a oa : List (String × String)) (_hlen : 2 ≤ cs.length)
    (hcs : rt_safePairs cs = true) (hd : rt_safe d = true) :
    dom_to_tree (XNode.elem "piecewise" a
        (piecesNodes cs
          ++ XNodes.cons (XNode.elem "otherwise" oa (XNodes.cons (domOf d) XNodes.nil))
            XNodes.nil))
      = .ok (nestWithDefault cs d) := by
  have h := piecewise_children_pieces cs d oa hcs hd
  simp [dom_to_tree, recursive_dom_to_tree, map_constant_inv, h, assembleCases,
    nestCases_some]

/-- Witness for C6: two pieces and an otherwise nest as
`Case(c1, v1, Case(c2, v2, default))`. -/
theorem C6_piecewise_nesting_witness :
    2 ≤ [((Tree.name "p"), (Tree.constNum "integer" "1")),
         ((Tree.name "q"), (Tree.constNum "integer" "2"))].length
    ∧ rt_safePairs [((Tree.name "p"), (Tree.constNum "integer" "1")),
         ((Tree.name "q"), (Tree.constNum "integer" "2"))] = true
    ∧ rt_safe (Tree.name "z") = true
    ∧ dom_to_tree (XNode.elem "piecewise" []
        (piecesNodes [((Tree.name "p"), (Tree.constNum "integer" "1")),
            ((Tree.name "q"), (Tree.constNum "integer" "2"))]
          ++ XNodes.cons
              (XNode.elem "otherwise" [] (XNodes.cons (domOf (Tree.name "z")) XNodes.nil))
              XNodes.nil))
      = .ok (Tree.case4 (Tree.name "p") (Tree.constNum "integer" "1")
          (Tree.case4 (Tree.name "q") (Tree.constNum "integer" "2") (Tree.name "z"))) := by
  refine ⟨by decide, rfl, rfl, ?_⟩
  exact C6_piecewise_nesting
    [((Tree.name "p"), (Tree.constNum "integer" "1")),
     ((Tree.name "q"), (Tree.constNum "integer" "2"))]
    (Tree.name "z") [] [] (by decide) rfl rfl

/-- C7 (confirmed): emission of an Apply node whose operator is in the fixed
symbol set uses the static table — `+`→plus, `-`→minus, `*`→times,
`/`→divide, `^`→power, `|`→factorof, `=`→eq, `<>`→neq, `!=`→neq, `>`→gt,
`>=`→geq, `<=`→leq, `<`→lt — both inequality spellings emitting `neq`. -/
theorem C7_operator_table :
    (∀ args : Trees, recursive_tree_to_sax (Tree.apply "+" args) = sendFunction "plus" args)
    ∧ (∀ args : Trees, recursive_tree_to_sax (Tree.apply "-" args) = sendFunction "minus" args)
    ∧ (∀ args : Trees, recursive_tree_to_sax (Tree.apply "*" args) = sendFunction "times" args)
    ∧ (∀ args : Trees, recursive_tree_to_sax (Tree.apply "/" args) = sendFunction "divide" args)
    ∧ (∀ args : Trees, recursive_tree_to_sax (Tree.apply "^" args) = sendFunction "power" args)
    ∧ (∀ args : Trees, recursive_tree_to_sax (Tree.apply "|" args) = sendFunction "factorof" args)
    ∧ (∀ args : Trees, recursive_tree_to_sax (Tree.apply "=" args) = sendFunction "eq" args)
    ∧ (∀ args : Trees, recursive_tree_to_sax (Tree.apply "<>" args) = sendFunction "neq" args)
    ∧ (∀ args : Trees, recursive_tree_to_sax (Tree.apply "!=" args) = sendFunction "neq" args)
    ∧ (∀ args : Trees, recursive_tree_to_sax (Tree.apply ">" args) = sendFunction "gt" args)
    ∧ (∀ args : Trees, recursive_tree_to_sax (Tree.apply ">=" args) = sendFunction "geq" args)
    ∧ (∀ args : Trees, recursive_tree_to_sax (Tree.apply "<=" args) = sendFunction "leq" args)
    ∧ (∀ args : Trees, recursive_tree_to_sax (Tree.apply "<" args) = sendFunction "lt" args) :=
  ⟨fun _ => rfl, fun _ => rfl, fun _ => rfl, fun _ => rfl, fun _ => rfl, fun _ => rfl,
    fun _ => rfl, fun _ => rfl, fun _ => rfl, fun _ => rfl, fun _ => rfl, fun _ => rfl,
    fun _ => rfl⟩

/-- C8 (confirmed): `tree_to_sax` brackets the walk with a document-start
event and one prefix-mapping declaration of the single MathML namespace, and
the element events in between are properly nested (LIFO) with every element
in that namespace, ending with the matching end-prefix-mapping and
document-end events. -/
theorem C8_document_bracket_and_balance (t : Tree) :
    tree_to_sax t
      = [Event.startDocument, Event.startPrefixMapping MATHML_NAMESPACE_URI]
        ++ recursive_tree_to_sax t ++ [Event.endPrefixMapping, Event.endDocument]
      ∧ List.foldl nsStackStep (some []) (recursive_tree_to_sax t) = some [] :=
  ⟨rfl, ns_emit t []⟩

/-- C9 (confirmed): `Name("true")`/`Name("false")` emit the same markup as
the boolean constants, and extraction maps those elements to `Const(Bool)`,
so the round trip sends `Name("true")` to `Const(Bool true)`, not back to
the name node. -/
theorem C9_boolean_name_collapse :
    recursive_tree_to_sax (Tree.name "true") = recursive_tree_to_sax (Tree.constBool true)
    ∧ recursive_tree_to_sax (Tree.name "false") = recursive_tree_to_sax (Tree.constBool false)
    ∧ roundTrip (Tree.name "true") = .ok (Tree.constBool true)
    ∧ roundTrip (Tree.name "true") ≠ .ok (Tree.name "true") := by
  refine ⟨rfl, rfl, rfl, ?_⟩
  intro h
  exact Tree.noConfusion (Except.ok.inj h)

/-- C10 (confirmed): both `<>` and `!=` emit `neq`, the dictionary inversion
maps `neq` to the single fixed symbol `!=`, and therefore extracting an
emitted `<>`-application yields the `!=` symbol instead of the original,
while `!=` round-trips unchanged. -/
theorem C10_neq_dictionary_inversion :
    map_operator "<>" = some "neq" ∧ map_operator "!=" = some "neq"
    ∧ map_operator_inv "neq" = some "!="
    ∧ roundTrip (Tree.apply "<>" (Trees.cons (Tree.name "x") Trees.nil))
        = .ok (Tree.apply "!=" (Trees.cons (Tree.name "x") Trees.nil))
    ∧ roundTrip (Tree.apply "<>" (Trees.cons (Tree.name "x") Trees.nil))
        ≠ .ok (Tree.apply "<>" (Trees.cons (Tree.name "x") Trees.nil))
    ∧ roundTrip (Tree.apply "!=" (Trees.cons (Tree.name "x") Trees.nil))
        = .ok (Tree.apply "!=" (Trees.cons (Tree.name "x") Trees.nil)) := by
  refine ⟨rfl, rfl, rfl, rfl, ?_, rfl⟩
  intro h
  have h2 := Except.ok.inj h
  injection h2 with hop hargs
  exact absurd hop (by decide)

end Xmlterm
